import Mathlib

/-!
Verification development for the GACCIA orchestration-and-aggregation core
(files gaccia_types.py, gaccia_evaluators.py, gaccia_agents.py, gaccia_main.py).

Modelling conventions:
* The External Language Service is opaque and nondeterministic, so it is
  embedded as an explicit input.  For the judges (BaseJudge.evaluate) the raw
  response text is passed as an argument; for the orchestrator flow, where the
  claims talk about how many outbound requests are issued and how failures
  propagate, the service is an oracle indexed by the ordinal number of the
  outbound call (`Nat -> Except e String`) and a call counter is threaded
  through.  Prompt construction (pure f-string assembly fed to the service)
  is absorbed into the oracle, which may return anything for each call.
* Python floats are modelled as exact rationals.  The only float operations
  the core performs are literal parsing, sum, division by a list length and
  comparison, all of which the claims treat as exact arithmetic.
* Python string primitives (split, strip, startswith, lower, slicing) are
  re-implemented structurally over the character list of the string, so that
  every definition evaluates inside the kernel.
* Fields of the source dataclasses that no claim touches and that are not
  representable in a pure model (uuid session ids, wall-clock timestamps,
  best-effort file logging, print statements) are omitted; every remaining
  field follows the source definition.
-/

/-! ## Data model (gaccia_types.py and gaccia_evaluators.py dataclasses) -/

/-- `CodeImplementation` from gaccia_types.py: one produced code artifact. -/
structure CodeImplementation where
  code : String
  language : String
  version : Nat
  improvements : List String
  architect_notes : String
deriving DecidableEq, Repr

/-- `GACCIASession` from gaccia_types.py.  The source also carries
`session_id` (uuid), `evaluations` (unused by the orchestrator) and
`created_at` (wall clock); those fields are omitted from the model. -/
structure GACCIASession where
  original_code : String
  original_language : String
  python_implementations : List CodeImplementation
  typescript_implementations : List CodeImplementation
deriving DecidableEq, Repr

/-- `DetailedEvaluation` from gaccia_evaluators.py: one judge verdict
for one dimension.  The source documents `score` as a float on a 0-10
scale; it is modelled as an exact rational. -/
structure DetailedEvaluation where
  dimension : String
  score : ℚ
  reasoning : String
  strengths : List String
  weaknesses : List String
  suggestions : List String
deriving DecidableEq, Repr

/-- `CompetitiveEvaluation` from gaccia_evaluators.py.  The derived
display-only `summary` string of the source (built with float formatting)
is omitted; every other field is kept. -/
structure CompetitiveEvaluation where
  python_evaluations : List DetailedEvaluation
  typescript_evaluations : List DetailedEvaluation
  python_total_score : ℚ
  typescript_total_score : ℚ
  winner : String
  python_snark : String
  typescript_snark : String
deriving DecidableEq, Repr

/-- `CodeAnalysis` from gaccia_agents.py. -/
structure CodeAnalysis where
  description : String
  language : String
  complexity : String
  key_features : List String
  potential_issues : List String
deriving DecidableEq, Repr

/-- `ConversionPlan` from gaccia_agents.py (`library_mappings` is a dict of
strings, modelled as an association list). -/
structure ConversionPlan where
  source_language : String
  target_language : String
  conversion_strategy : String
  gotchas : List String
  recommended_patterns : List String
  library_mappings : List (String × String)
deriving DecidableEq, Repr

/-! ## Python string primitives, re-implemented structurally -/

/-- The ASCII whitespace characters removed by the Python `str.strip()`
method (space, tab, newline, carriage return, vertical tab, form feed).
Unicode whitespace, which `strip` also removes, is outside the model. -/
def pyIsSpace (c : Char) : Bool :=
  c = ' ' ∨ c = '\t' ∨ c = '\n' ∨ c = '\r' ∨ c = '\x0b' ∨ c = '\x0c'

/-- Python `str.strip()`: drop leading and trailing whitespace. -/
def pyStrip (s : String) : String :=
  ⟨(s.data.dropWhile pyIsSpace).reverse.dropWhile pyIsSpace |>.reverse⟩

/-- Split a character list at every occurrence of `sep`, keeping empty
pieces, as the Python `str.split` method does when given a one-character
separator: `"".split(sep) == [""]` and `"a:".split(":") == ["a", ""]`. -/
def splitChars (sep : Char) (cs : List Char) : List (List Char) :=
  cs.foldr
    (fun c acc =>
      if c = sep then [] :: acc
      else
        match acc with
        | a :: rest => (c :: a) :: rest
        | [] => [[c]])
    [[]]

/-- Python `s.split(sep)` for a one-character separator. -/
def pySplit (sep : Char) (s : String) : List String :=
  (splitChars sep s.data).map fun cs => ⟨cs⟩

/-- Python `s.startswith(p)`. -/
def pyStartsWith (p s : String) : Bool :=
  p.data.isPrefixOf s.data

/-- Python `str.lower()` restricted to ASCII letters (the only inputs the
program compares against are the ASCII words "python" and "typescript"). -/
def pyLowerChar (c : Char) : Char :=
  if 'A' ≤ c ∧ c ≤ 'Z' then Char.ofNat (c.toNat + 32) else c

/-- Python `s.lower()`. -/
def pyLower (s : String) : String :=
  ⟨s.data.map pyLowerChar⟩

/-- Python `s[:n]`: the first `n` characters of `s`. -/
def pySlice (s : String) (n : Nat) : String :=
  ⟨s.data.take n⟩

/-- Numeric value of a list of decimal digit characters. -/
def digitsToNat (ds : List Char) : Nat :=
  ds.foldl (fun a c => 10 * a + (c.toNat - '0'.toNat)) 0

/-- Python `float(s)` on an already stripped string, restricted to finite
decimal literals: optional sign, digits with an optional fractional part, and
an optional decimal exponent.  The special spellings `inf`, `infinity` and
`nan` (not representable as rationals) and underscore digit grouping are
treated as unparseable; every value a claim exercises is a plain decimal. -/
def pyFloat? (s : String) : Option ℚ :=
  let (sign, cs) : ℚ × List Char :=
    match s.data with
    | '+' :: r => (1, r)
    | '-' :: r => (-1, r)
    | r => (1, r)
  let (ip, cs1) := cs.span Char.isDigit
  let (fp, cs2) :=
    match cs1 with
    | '.' :: r => r.span Char.isDigit
    | r => ([], r)
  -- a literal needs at least one digit, before or after the optional dot
  if ip.isEmpty ∧ (fp.isEmpty ∨ cs1 = cs2) then none
  else
    let mantissa : ℚ :=
      (digitsToNat ip * 10 ^ fp.length + digitsToNat fp : ℕ) / (10 ^ fp.length : ℕ)
    match cs2 with
    | [] => some (sign * mantissa)
    | 'e' :: r | 'E' :: r =>
      let (expNeg, r1) : Bool × List Char :=
        match r with
        | '+' :: r1 => (false, r1)
        | '-' :: r1 => (true, r1)
        | r1 => (false, r1)
      let (ed, r2) := r1.span Char.isDigit
      if ed.isEmpty ∨ ¬ r2.isEmpty then none
      else if expNeg then some (sign * mantissa / ((10 : ℕ) ^ digitsToNat ed : ℕ))
      else some (sign * mantissa * ((10 : ℕ) ^ digitsToNat ed : ℕ))
    | _ => none

/-! ## BaseJudge.evaluate (gaccia_evaluators.py lines 63-106) -/

/-- One iteration body of the score-extraction loop of
`BaseJudge.evaluate`: for a line starting with "Score:", the text between
the first and second colon (`line.split(":")[1]`), stripped and fed to
`float`; a `ValueError` or `IndexError` (modelled by `none`) leaves the
loop running. -/
def parseScoreLine (line : String) : Option ℚ :=
  ((pySplit ':' line).get? 1).bind fun t => pyFloat? (pyStrip t)

/-- The `for line in lines` loop of `BaseJudge.evaluate`: the first line
prefixed with "Score:" whose payload parses ends the loop with that value;
unparseable "Score:" lines are skipped (`except: pass`). -/
def findScore : List String → Option ℚ
  | [] => none
  | line :: rest =>
    if pyStartsWith "Score:" line then
      match parseScoreLine line with
      | some q => some q
      | none => findScore rest
    else findScore rest

/-- `BaseJudge.evaluate` from gaccia_evaluators.py.  `code` and `language`
only feed the prompt sent to the external service, whose reply is the
`content` argument (`response.content`).  The parse keeps the default score
7.0 when no "Score:" line parses, stores the whole raw response as
`reasoning`, and fills the advisory lists with fixed placeholder strings. -/
def BaseJudge.evaluate (dimension code language content : String) : DetailedEvaluation :=
  let _ := code
  let _ := language
  let lines := pySplit '\n' content
  let score : ℚ := (findScore lines).getD 7
  { dimension := dimension
    score := score
    reasoning := content
    strengths := ["Strength 1", "Strength 2"]
    weaknesses := ["Weakness 1", "Weakness 2"]
    suggestions := ["Suggestion 1", "Suggestion 2"] }

/-- Dimension names of the five judges of `EvaluationOrchestrator`, in the
insertion order of the `python_judges` / `typescript_judges` dicts. -/
def judgeDimensions : List String :=
  ["Readability", "Maintainability", "Latest Tools & Practices",
   "Documentation Enjoyability", "Security & Performance"]

/-- `EvaluationOrchestrator.evaluate_implementations` from
gaccia_evaluators.py (lines 365-429).  `pyResp i` and `tsResp i` are the
service responses for the i-th dimension judge of each language;
`pySnarkResp` and `tsSnarkResp` those of the two snark generators
(`generate_snark` returns `response.content.strip()`).  Totals are the sum
of the five scores divided by the number of evaluations, and the winner is
picked by strict comparison of the totals. -/
def evaluate_implementations (python_code typescript_code : String)
    (pyResp tsResp : Nat → String) (pySnarkResp tsSnarkResp : String) :
    CompetitiveEvaluation :=
  let python_evaluations :=
    judgeDimensions.enum.map fun p =>
      BaseJudge.evaluate p.2 python_code "python" (pyResp p.1)
  let typescript_evaluations :=
    judgeDimensions.enum.map fun p =>
      BaseJudge.evaluate p.2 typescript_code "typescript" (tsResp p.1)
  let python_total : ℚ :=
    (python_evaluations.map DetailedEvaluation.score).sum / (python_evaluations.length : ℚ)
  let typescript_total : ℚ :=
    (typescript_evaluations.map DetailedEvaluation.score).sum / (typescript_evaluations.length : ℚ)
  let winner :=
    if python_total > typescript_total then "Python"
    else if typescript_total > python_total then "TypeScript"
    else "Tie"
  { python_evaluations := python_evaluations
    typescript_evaluations := typescript_evaluations
    python_total_score := python_total
    typescript_total_score := typescript_total
    winner := winner
    python_snark := pyStrip pySnarkResp
    typescript_snark := pyStrip tsSnarkResp }

/-! ## Orchestrator (gaccia_agents.py) -/

/-- One run of the External Language Service, as an oracle: the reply (or
failure) of the n-th outbound request issued during the run.  All agent
wrappers delegate to this one service; the call counter identifies each
request, and the prompt a request carries is absorbed by the oracle. -/
def Service (ε : Type) : Type := Nat → Except ε String

/-- `GACCIAOrchestrator._run_language_conversion_flow` from gaccia_agents.py
(lines 516-577): one round of directional conversion, issuing six sequential
service requests (analyze, conversion plan, implementation plan, implement,
review, conversion review).  `n` is the index of the first outbound call of
this round and the returned counter is the index after the last one.  The
intermediate `CodeAnalysis` and `ConversionPlan` records are built as in the
source (truncated descriptions, fixed placeholder lists); together with the
implementation plan they feed only later prompts, which the oracle absorbs.
The branches choosing the python or the typescript architect and coder
select agents that differ only in their prompts, so the model keeps one
arm.  No language validation of any kind is performed. -/
def run_language_conversion_flow (svc : Service ε)
    (code source_lang target_lang : String) (version : Nat) (n : Nat) :
    Except ε (CodeImplementation × Nat) := do
  -- the code text only appears inside prompts (steps 1, 4 and 6)
  let _ := code
  -- Step 1: source-language architect analyzes the code
  let r1 ← svc n
  let analysis : CodeAnalysis :=
    { description := pySlice r1 200 ++ "..."
      language := source_lang
      complexity := "Medium"
      key_features := ["Feature 1", "Feature 2"]
      potential_issues := ["Issue 1", "Issue 2"] }
  -- Step 2: polyglot architect creates the conversion plan
  let r2 ← svc (n + 1)
  let conversion_plan : ConversionPlan :=
    { source_language := analysis.language
      target_language := target_lang
      conversion_strategy := pySlice r2 300 ++ "..."
      gotchas := ["Gotcha 1", "Gotcha 2"]
      recommended_patterns := ["Pattern 1", "Pattern 2"]
      library_mappings := [("lib1", "lib2")] }
  let _ := conversion_plan
  -- Step 3: target-language architect plans the implementation
  let implementation_plan ← svc (n + 2)
  let _ := implementation_plan
  -- Step 4: target-language coder implements
  let implemented_code ← svc (n + 3)
  -- Step 5: target-language architect reviews
  let review ← svc (n + 4)
  -- Step 6: polyglot architect validates the conversion
  let conversion_review ← svc (n + 5)
  pure
    ({ code := implemented_code
       language := target_lang
       version := version
       improvements := []
       architect_notes := "Review: " ++ review ++ "\n\nConversion Review: " ++ conversion_review },
     n + 6)

/-- The `for round_num in range(rounds)` loop of
`GACCIAOrchestrator.run_competitive_session` (lines 486-512): `r` rounds
remain, `roundNum` rounds are already complete, `n` outbound calls have been
made.  Each round converts to the language other than the current one,
appends the produced implementation to the matching sequence of the session
and threads the produced code forward.  The optional per-round results
logging of the source (best-effort file output) is outside the model. -/
def sessionLoop (svc : Service ε) :
    Nat → String → String → GACCIASession → Nat → Nat → Except ε (GACCIASession × Nat)
  | 0, _, _, session, _, n => pure (session, n)
  | r + 1, current_code, current_language, session, roundNum, n => do
    let target_language := if current_language = "python" then "typescript" else "python"
    let (implementation, n1) ←
      run_language_conversion_flow svc current_code current_language target_language
        (roundNum + 1) n
    let session' :=
      if target_language = "python" then
        { session with
            python_implementations := session.python_implementations ++ [implementation] }
      else
        { session with
            typescript_implementations := session.typescript_implementations ++ [implementation] }
    sessionLoop svc r implementation.code target_language session' (roundNum + 1) n1

/-- `GACCIAOrchestrator.run_competitive_session` (lines 469-514): lower-case
the input language, initialize the session and run the round loop. -/
def run_competitive_session (svc : Service ε) (code language : String) (rounds : Nat) :
    Except ε GACCIASession :=
  (sessionLoop svc rounds code (pyLower language)
    { original_code := code
      original_language := pyLower language
      python_implementations := []
      typescript_implementations := [] } 0 0).map Prod.fst

/-! ## Full competition (gaccia_main.py, GACCIAComplete.run_complete_competition) -/

/-- The selection
`session.python_implementations[-1].code if session.python_implementations
else code if language.lower() == "python" else ""` of
gaccia_main.py line 106: the last python implementation when one exists,
otherwise the unconverted original code when the original language was
python, otherwise the empty string. -/
def finalPythonCode (session : GACCIASession) (code language : String) : String :=
  match session.python_implementations.getLast? with
  | some impl => impl.code
  | none => if pyLower language = "python" then code else ""

/-- The mirror-image selection of gaccia_main.py line 107 for the
typescript side. -/
def finalTypescriptCode (session : GACCIASession) (code language : String) : String :=
  match session.typescript_implementations.getLast? with
  | some impl => impl.code
  | none => if pyLower language = "typescript" then code else ""

/-- `GACCIAComplete.run_complete_competition` from gaccia_main.py (lines
71-126): run the session, pick the final code of each side with the
fallbacks above, print an error and `return None` (modelled as `.ok none`)
when a selected text is empty, otherwise evaluate the pair.  Console
output, logging and the `CompletedGACCIASession` wrapper (which stores the
pair unchanged) are outside the model. -/
def run_complete_competition (svc : Service ε) (pyResp tsResp : Nat → String)
    (pySnarkResp tsSnarkResp : String) (code language : String) (rounds : Nat) :
    Except ε (Option (GACCIASession × CompetitiveEvaluation)) := do
  let session ← run_competitive_session svc code language rounds
  let final_python := finalPythonCode session code language
  let final_typescript := finalTypescriptCode session code language
  if final_python = "" ∨ final_typescript = "" then
    pure none
  else
    pure (some (session,
      evaluate_implementations final_python final_typescript pyResp tsResp
        pySnarkResp tsSnarkResp))

/-! ## Concrete service stand-ins and the sessions they produce -/

/-- A service stand-in whose every call succeeds with the reply "ok". -/
def okSvc : Service String := fun _ => .ok "ok"

/-- A service stand-in whose every call fails with the error "boom". -/
def errSvc : Service String := fun _ => .error "boom"

/-- A judge-response stand-in carrying no parseable score line. -/
def dummyResp : Nat → String := fun _ => "dummy"

/-- The implementation every round produces under `okSvc`. -/
def okImpl (language : String) (version : Nat) : CodeImplementation :=
  { code := "ok"
    language := language
    version := version
    improvements := []
    architect_notes := "Review: ok\n\nConversion Review: ok" }

/-- The session `run_competitive_session okSvc "print(1)" "python" 1`
produces: one typescript implementation, no python implementation. -/
def sessionOneRound : GACCIASession :=
  { original_code := "print(1)"
    original_language := "python"
    python_implementations := []
    typescript_implementations := [okImpl "typescript" 1] }

/-- The session `run_competitive_session okSvc "x" "python" 2` produces. -/
def sessionTwoRounds : GACCIASession :=
  { original_code := "x"
    original_language := "python"
    python_implementations := [okImpl "python" 2]
    typescript_implementations := [okImpl "typescript" 1] }

/-- The arithmetic sequence start, start + 2, ... of length count. -/
def everyOther : Nat → Nat → List Nat
  | _, 0 => []
  | start, count + 1 => start :: everyOther (start + 2) count


/-! ## Helper lemmas about the judge parse and the winner rule -/

/-- When every line prefixed with "Score:" fails to parse, the score loop
finds nothing. -/
theorem findScore_eq_none {lines : List String}
    (h : ∀ line ∈ lines, pyStartsWith "Score:" line = true → parseScoreLine line = none) :
    findScore lines = none := by
  induction lines with
  | nil => rfl
  | cons line rest ih =>
    unfold findScore
    by_cases hs : pyStartsWith "Score:" line = true
    · simp only [hs, if_true, h line (List.mem_cons_self line rest) hs]
      exact ih fun l hl hsl => h l (List.mem_cons_of_mem line hl) hsl
    · simp only [Bool.not_eq_true] at hs
      simp only [hs, Bool.false_eq_true, if_false]
      exact ih fun l hl hsl => h l (List.mem_cons_of_mem line hl) hsl

/-- The winner field of an evaluation, unfolded: strict comparison of the
two stored totals. -/
theorem evaluate_implementations_winner (pc tc : String) (pyResp tsResp : Nat → String)
    (ps ts : String) :
    (evaluate_implementations pc tc pyResp tsResp ps ts).winner
      = (if (evaluate_implementations pc tc pyResp tsResp ps ts).python_total_score >
             (evaluate_implementations pc tc pyResp tsResp ps ts).typescript_total_score
         then "Python"
         else if (evaluate_implementations pc tc pyResp tsResp ps ts).typescript_total_score >
             (evaluate_implementations pc tc pyResp tsResp ps ts).python_total_score
         then "TypeScript"
         else "Tie") := rfl

/-- Equal totals force the winner value "Tie". -/
theorem winner_eq_tie_of_total_eq (pc tc : String) (pyResp tsResp : Nat → String)
    (ps ts : String)
    (h : (evaluate_implementations pc tc pyResp tsResp ps ts).python_total_score
       = (evaluate_implementations pc tc pyResp tsResp ps ts).typescript_total_score) :
    (evaluate_implementations pc tc pyResp tsResp ps ts).winner = "Tie" := by
  rw [evaluate_implementations_winner, h, if_neg (lt_irrefl _), if_neg (lt_irrefl _)]

/-! ## C1 -/

/-- C1, counterexample: with identical unparseable judge responses for
both languages every score defaults to 7.0, the two totals are exactly
equal, and the evaluation records the winner "Tie" — a value outside the
claimed set {"python", "typescript", "tie"} (the implementation
capitalizes all three winner strings). -/
theorem c1_winner_capitalized :
    (evaluate_implementations "print(1)" "console.log(1)" dummyResp dummyResp "s" "s").winner
        = "Tie"
    ∧ ("Tie" : String) ≠ "python" ∧ ("Tie" : String) ≠ "typescript"
    ∧ ("Tie" : String) ≠ "tie" :=
  ⟨winner_eq_tie_of_total_eq "print(1)" "console.log(1)" dummyResp dummyResp "s" "s" rfl,
   by decide, by decide, by decide⟩

/-- C1, amended: the winner is determined by strict comparison of the two
totals exactly as claimed, but the three possible values are capitalized:
"Python" if the python total is strictly greater, "TypeScript" if strictly
less, "Tie" if the totals are exactly equal (exact equality, no epsilon). -/
theorem c1_winner_rule (pc tc : String) (pyResp tsResp : Nat → String) (ps ts : String) :
    ((evaluate_implementations pc tc pyResp tsResp ps ts).winner
      = (if (evaluate_implementations pc tc pyResp tsResp ps ts).python_total_score >
             (evaluate_implementations pc tc pyResp tsResp ps ts).typescript_total_score
         then "Python"
         else if (evaluate_implementations pc tc pyResp tsResp ps ts).typescript_total_score >
             (evaluate_implementations pc tc pyResp tsResp ps ts).python_total_score
         then "TypeScript"
         else "Tie"))
    ∧ ((evaluate_implementations pc tc pyResp tsResp ps ts).winner = "Python"
      ∨ (evaluate_implementations pc tc pyResp tsResp ps ts).winner = "TypeScript"
      ∨ (evaluate_implementations pc tc pyResp tsResp ps ts).winner = "Tie") := by
  refine ⟨evaluate_implementations_winner pc tc pyResp tsResp ps ts, ?_⟩
  rw [evaluate_implementations_winner pc tc pyResp tsResp ps ts]
  split_ifs <;> simp

/-! ## C4 -/

/-- C4: for every response in which no line prefixed with "Score:" carries
a parseable payload, the judge still returns normally (the model of
`BaseJudge.evaluate` is a total function) and the returned score is the
fixed default 7.0 of the source (`score = 7.0  # Default score`). -/
theorem c4_default_score_on_unparseable (dimension code language content : String)
    (h : ∀ line ∈ pySplit '\n' content,
        pyStartsWith "Score:" line = true → parseScoreLine line = none) :
    (BaseJudge.evaluate dimension code language content).score = 7 := by
  show (findScore (pySplit '\n' content)).getD 7 = 7
  rw [findScore_eq_none h]
  rfl

/-- C4, witness: a concrete response whose only "Score:" line does not
parse yields the default score 7.0. -/
theorem c4_default_score_on_unparseable_witness :
    (∀ line ∈ pySplit '\n' "Score: N/A\nno score in this response",
        pyStartsWith "Score:" line = true → parseScoreLine line = none)
    ∧ (BaseJudge.evaluate "Readability" "print(1)" "python"
        "Score: N/A\nno score in this response").score = 7 :=
  ⟨by decide,
   c4_default_score_on_unparseable "Readability" "print(1)" "python"
     "Score: N/A\nno score in this response" (by decide)⟩

/-! ## C6 -/

/-- C6: the parsed score is stored without any clamping, so a service
response whose "Score:" line carries 15 makes the judge return a
DimensionScore of 15.0, outside the closed interval [0, 10] that both the
spec and the dataclass field documentation (`score: float  # 0-10 scale`)
promise. -/
theorem c6_score_escapes_range :
    (BaseJudge.evaluate "Readability" "print(1)" "python" "Score: 15").score = 15
    ∧ ¬ ((BaseJudge.evaluate "Readability" "print(1)" "python" "Score: 15").score ≤ 10) := by
  have h : (BaseJudge.evaluate "Readability" "print(1)" "python" "Score: 15").score
      = 1 * (((15 : ℕ) : ℚ) / ((1 : ℕ) : ℚ)) := rfl
  refine ⟨?_, ?_⟩ <;> rw [h] <;> norm_num

/-! ## C9 -/

/-- C9, counterexample: on a response with no extractable score the default
7.0 is substituted, yet the returned reasoning text is exactly the raw
response — identical to what any successfully parsed response would store —
so nothing in the result records that the substitution happened. -/
theorem c9_substitution_unrecorded :
    (BaseJudge.evaluate "Readability" "print(1)" "python" "garbage").score = 7
    ∧ (BaseJudge.evaluate "Readability" "print(1)" "python" "garbage").reasoning = "garbage" :=
  ⟨rfl, rfl⟩

/-- C9, amended: when a score cannot be extracted the fixed default 7.0 is
substituted silently; the reasoning field always holds exactly the raw
response text, for parseable and unparseable responses alike, so no marker
of the substitution is ever added to it. -/
theorem c9_reasoning_is_raw_response (dimension code language content : String) :
    (BaseJudge.evaluate dimension code language content).reasoning = content := rfl

/-! ## C10 -/

/-- C10: the advisory lists of every judge result are the fixed
placeholder constants, whatever the service replied. -/
theorem c10_advisory_lists_constant (dimension code language content : String) :
    (BaseJudge.evaluate dimension code language content).strengths
        = ["Strength 1", "Strength 2"]
    ∧ (BaseJudge.evaluate dimension code language content).weaknesses
        = ["Weakness 1", "Weakness 2"]
    ∧ (BaseJudge.evaluate dimension code language content).suggestions
        = ["Suggestion 1", "Suggestion 2"] :=
  ⟨rfl, rfl, rfl⟩

/-! ## Helper lemmas about the conversion flow and the session loop -/

/-- The conversion flow, rewritten as the cascade of its six service
calls: the first failing call decides the result, and a fully successful
round returns the implementation built from calls four, five and six
together with the advanced call counter. -/
theorem run_language_conversion_flow_eq (svc : Service ε) (code sl tl : String) (v n : Nat) :
    run_language_conversion_flow svc code sl tl v n =
      match svc n with
      | .error e => .error e
      | .ok _ =>
        match svc (n + 1) with
        | .error e => .error e
        | .ok _ =>
          match svc (n + 2) with
          | .error e => .error e
          | .ok _ =>
            match svc (n + 3) with
            | .error e => .error e
            | .ok implemented_code =>
              match svc (n + 4) with
              | .error e => .error e
              | .ok review =>
                match svc (n + 5) with
                | .error e => .error e
                | .ok conversion_review =>
                  .ok ({ code := implemented_code
                         language := tl
                         version := v
                         improvements := []
                         architect_notes :=
                           "Review: " ++ review ++ "\n\nConversion Review: " ++ conversion_review },
                       n + 6) := by
  unfold run_language_conversion_flow
  cases svc n with
  | error e => rfl
  | ok r1 =>
    cases svc (n + 1) with
    | error e => rfl
    | ok r2 =>
      cases svc (n + 2) with
      | error e => rfl
      | ok r3 =>
        cases svc (n + 3) with
        | error e => rfl
        | ok r4 =>
          cases svc (n + 4) with
          | error e => rfl
          | ok r5 =>
            cases svc (n + 5) with
            | error e => rfl
            | ok r6 => rfl

/-- A successful round carries the version and language it was asked for
and consumes exactly six service calls. -/
theorem run_language_conversion_flow_fields {svc : Service ε} {code sl tl : String}
    {v n : Nat} {impl : CodeImplementation} {n1 : Nat}
    (h : run_language_conversion_flow svc code sl tl v n = Except.ok (impl, n1)) :
    impl.version = v ∧ impl.language = tl ∧ n1 = n + 6 := by
  rw [run_language_conversion_flow_eq] at h
  repeat' split at h
  all_goals try exact Except.noConfusion h
  simp only [Except.ok.injEq, Prod.mk.injEq] at h
  obtain ⟨h1, h2⟩ := h
  subst h2
  rw [← h1]
  exact ⟨rfl, rfl, rfl⟩

/-- When the first failing service call of a round is call `n + k`
(`k < 6`), the whole round returns exactly that error. -/
theorem run_language_conversion_flow_error {svc : Service ε} {code sl tl : String}
    {v n k : Nat} {e : ε}
    (hok : ∀ j, j < k → (svc (n + j)).isOk = true)
    (herr : svc (n + k) = .error e) (hk : k < 6) :
    run_language_conversion_flow svc code sl tl v n = .error e := by
  rw [run_language_conversion_flow_eq]
  have step : ∀ m, m < k → ∃ s, svc (n + m) = .ok s := by
    intro m hm
    have h1 := hok m hm
    cases hc : svc (n + m) with
    | error e0 => rw [hc] at h1; exact absurd h1 (by simp [Except.isOk, Except.toBool])
    | ok s => exact ⟨s, rfl⟩
  interval_cases k
  · rw [Nat.add_zero] at herr
    rw [herr]
  · obtain ⟨s0, h0⟩ := step 0 (by omega)
    rw [Nat.add_zero] at h0
    rw [h0, herr]
  · obtain ⟨s0, h0⟩ := step 0 (by omega)
    obtain ⟨s1, h1⟩ := step 1 (by omega)
    rw [Nat.add_zero] at h0
    rw [h0, h1, herr]
  · obtain ⟨s0, h0⟩ := step 0 (by omega)
    obtain ⟨s1, h1⟩ := step 1 (by omega)
    obtain ⟨s2, h2⟩ := step 2 (by omega)
    rw [Nat.add_zero] at h0
    rw [h0, h1, h2, herr]
  · obtain ⟨s0, h0⟩ := step 0 (by omega)
    obtain ⟨s1, h1⟩ := step 1 (by omega)
    obtain ⟨s2, h2⟩ := step 2 (by omega)
    obtain ⟨s3, h3⟩ := step 3 (by omega)
    rw [Nat.add_zero] at h0
    rw [h0, h1, h2, h3, herr]
  · obtain ⟨s0, h0⟩ := step 0 (by omega)
    obtain ⟨s1, h1⟩ := step 1 (by omega)
    obtain ⟨s2, h2⟩ := step 2 (by omega)
    obtain ⟨s3, h3⟩ := step 3 (by omega)
    obtain ⟨s4, h4⟩ := step 4 (by omega)
    rw [Nat.add_zero] at h0
    rw [h0, h1, h2, h3, h4, herr]

/-- One unfolding of the round loop. -/
theorem sessionLoop_succ_eq (svc : Service ε) (r : Nat) (code lang : String)
    (session : GACCIASession) (i n : Nat) :
    sessionLoop svc (r + 1) code lang session i n =
      match run_language_conversion_flow svc code lang
          (if lang = "python" then "typescript" else "python") (i + 1) n with
      | .error e => .error e
      | .ok (impl, n1) =>
          sessionLoop svc r impl.code (if lang = "python" then "typescript" else "python")
            (if (if lang = "python" then "typescript" else "python") = "python" then
              { session with
                  python_implementations := session.python_implementations ++ [impl] }
             else
              { session with
                  typescript_implementations := session.typescript_implementations ++ [impl] })
            (i + 1) n1 := by
  cases hf : run_language_conversion_flow svc code lang
      (if lang = "python" then "typescript" else "python") (i + 1) n with
  | error e => simp only [sessionLoop, bind, Except.bind, hf]
  | ok p => cases p with | mk impl n1 => simp only [sessionLoop, bind, Except.bind, hf]

/-- `everyOther` produces as many entries as requested. -/
theorem everyOther_length : ∀ (a c : Nat), (everyOther a c).length = c
  | _, 0 => rfl
  | a, c + 1 => by simp [everyOther, everyOther_length (a + 2) c]

/-- Unfolding step for `everyOther`. -/
theorem everyOther_cons (a c : Nat) : everyOther a (c + 1) = a :: everyOther (a + 2) c := rfl

/-- Master invariant of the round loop: starting from any session state
with `i` rounds already complete, a successful run of `r` further rounds
appends implementations whose versions are the consecutive round numbers
`i+1, i+2, ...`, alternating between the two sequences and starting with
the language other than the current one. -/
theorem sessionLoop_versions (svc : Service ε) :
    ∀ (r : Nat) (code lang : String) (session : GACCIASession) (i n : Nat)
      (s : GACCIASession) (nf : Nat),
      sessionLoop svc r code lang session i n = .ok (s, nf) →
      (if lang = "python" then
        s.python_implementations.map CodeImplementation.version
          = session.python_implementations.map CodeImplementation.version
            ++ everyOther (i + 2) (r / 2)
        ∧ s.typescript_implementations.map CodeImplementation.version
          = session.typescript_implementations.map CodeImplementation.version
            ++ everyOther (i + 1) ((r + 1) / 2)
      else
        s.python_implementations.map CodeImplementation.version
          = session.python_implementations.map CodeImplementation.version
            ++ everyOther (i + 1) ((r + 1) / 2)
        ∧ s.typescript_implementations.map CodeImplementation.version
          = session.typescript_implementations.map CodeImplementation.version
            ++ everyOther (i + 2) (r / 2)) := by
  intro r
  induction r with
  | zero =>
    intro code lang session i n s nf h
    simp only [sessionLoop, pure, Except.pure, Except.ok.injEq, Prod.mk.injEq] at h
    obtain ⟨rfl, rfl⟩ := h
    split <;> exact ⟨by simp [everyOther], by simp [everyOther]⟩
  | succ r ih =>
    intro code lang session i n s nf h
    rw [sessionLoop_succ_eq] at h
    split at h
    · exact Except.noConfusion h
    · rename_i impl n1 heq
      obtain ⟨hv, hl, hn⟩ := run_language_conversion_flow_fields heq
      by_cases hc : lang = "python"
      · subst hc
        simp only [reduceIte] at h
        have ih' := ih impl.code "typescript"
          { session with
              typescript_implementations := session.typescript_implementations ++ [impl] }
          (i + 1) n1 s nf h
        rw [if_neg (by decide)] at ih'
        rw [if_pos rfl]
        obtain ⟨ih1, ih2⟩ := ih'
        constructor
        · exact ih1
        · rw [ih2]
          simp only [List.map_append, List.map_cons, List.map_nil, hv]
          have hdiv : (r + 1 + 1) / 2 = r / 2 + 1 := by omega
          rw [hdiv, everyOther_cons]
          simp [List.append_assoc]
      · simp only [if_neg hc] at h
        simp only [reduceIte] at h
        have ih' := ih impl.code "python"
          { session with
              python_implementations := session.python_implementations ++ [impl] }
          (i + 1) n1 s nf h
        rw [if_pos rfl] at ih'
        rw [if_neg hc]
        obtain ⟨ih1, ih2⟩ := ih'
        constructor
        · rw [ih1]
          simp only [List.map_append, List.map_cons, List.map_nil, hv]
          have hdiv : (r + 1 + 1) / 2 = r / 2 + 1 := by omega
          rw [hdiv, everyOther_cons]
          simp [List.append_assoc]
        · exact ih2

/-- A successful session run is a successful loop run started on the
lower-cased language with an empty session. -/
theorem run_competitive_session_ok {svc : Service ε} {code language : String}
    {rounds : Nat} {s : GACCIASession}
    (h : run_competitive_session svc code language rounds = .ok s) :
    ∃ nf, sessionLoop svc rounds code (pyLower language)
      { original_code := code
        original_language := pyLower language
        python_implementations := []
        typescript_implementations := [] } 0 0 = .ok (s, nf) := by
  unfold run_competitive_session at h
  cases hsl : sessionLoop svc rounds code (pyLower language)
      { original_code := code
        original_language := pyLower language
        python_implementations := []
        typescript_implementations := [] } 0 0 with
  | error e => rw [hsl] at h; exact Except.noConfusion h
  | ok p =>
    obtain ⟨s0, nf⟩ := p
    rw [hsl] at h
    simp only [Except.map, Except.ok.injEq] at h
    subst h
    exact ⟨nf, rfl⟩

/-! ## C2 -/

/-- C2: whenever the session loop completes, the two per-language
sequences hold exactly `rounds` implementations in total and their lengths
differ by at most one. -/
theorem c2_round_count_invariant (svc : Service ε) (code language : String) (rounds : Nat)
    (s : GACCIASession)
    (_hlang : language = "python" ∨ language = "typescript") (_hrounds : 1 ≤ rounds)
    (h : run_competitive_session svc code language rounds = .ok s) :
    s.python_implementations.length + s.typescript_implementations.length = rounds
    ∧ s.python_implementations.length ≤ s.typescript_implementations.length + 1
    ∧ s.typescript_implementations.length ≤ s.python_implementations.length + 1 := by
  obtain ⟨nf, hsl⟩ := run_competitive_session_ok h
  have hv := sessionLoop_versions svc rounds code (pyLower language)
    { original_code := code
      original_language := pyLower language
      python_implementations := []
      typescript_implementations := [] } 0 0 s nf hsl
  have lp : s.python_implementations.length
      = (s.python_implementations.map CodeImplementation.version).length := by simp
  have lt : s.typescript_implementations.length
      = (s.typescript_implementations.map CodeImplementation.version).length := by simp
  split at hv <;> obtain ⟨h1, h2⟩ := hv <;>
    rw [lp, lt, h1, h2] <;>
    simp only [List.map_nil, List.nil_append, everyOther_length, List.length_append] <;>
    omega

/-- C2, witness: two rounds from python code yield one implementation per
language. -/
theorem c2_round_count_invariant_witness :
    (("python" : String) = "python" ∨ ("python" : String) = "typescript")
    ∧ (1 : Nat) ≤ 2
    ∧ run_competitive_session okSvc "x" "python" 2 = .ok sessionTwoRounds
    ∧ (sessionTwoRounds.python_implementations.length
         + sessionTwoRounds.typescript_implementations.length = 2
       ∧ sessionTwoRounds.python_implementations.length
           ≤ sessionTwoRounds.typescript_implementations.length + 1
       ∧ sessionTwoRounds.typescript_implementations.length
           ≤ sessionTwoRounds.python_implementations.length + 1) :=
  ⟨Or.inl rfl, by omega, rfl,
   c2_round_count_invariant okSvc "x" "python" 2 sessionTwoRounds (Or.inl rfl) (by omega) rfl⟩

/-! ## C3 -/

/-- C3, counterexample: the round executor performs no language
validation.  Called with equal source and target languages — or with
languages outside {python, typescript} altogether — it does not fail:
it issues all six service requests (the advanced call counter is 6) and
returns an implementation, so it certainly does not fail before the first
outbound call. -/
theorem c3_invalid_language_not_rejected :
    (run_language_conversion_flow okSvc "print(1)" "python" "python" 1 0).toOption.map
        Prod.snd = some 6
    ∧ (run_language_conversion_flow okSvc "print(1)" "java" "java" 1 0).toOption.map
        Prod.snd = some 6 :=
  ⟨rfl, rfl⟩

/-- C3, amended: the round executor validates nothing; for every pair of
languages — equal, swapped, or outside the two-element enum — a call on a
service whose next six replies succeed runs to completion and consumes
exactly six outbound calls, exactly as a valid call does. -/
theorem c3_no_language_validation (svc : Service ε) (code source_lang target_lang : String)
    (version n : Nat)
    (h : ∀ j, j < 6 → (svc (n + j)).isOk = true) :
    (run_language_conversion_flow svc code source_lang target_lang version n).toOption.map
        Prod.snd = some (n + 6) := by
  have step : ∀ m, m < 6 → ∃ s, svc (n + m) = .ok s := by
    intro m hm
    have h1 := h m hm
    cases hc : svc (n + m) with
    | error e0 => rw [hc] at h1; exact absurd h1 (by simp [Except.isOk, Except.toBool])
    | ok s => exact ⟨s, rfl⟩
  obtain ⟨s0, h0⟩ := step 0 (by omega)
  obtain ⟨s1, h1⟩ := step 1 (by omega)
  obtain ⟨s2, h2⟩ := step 2 (by omega)
  obtain ⟨s3, h3⟩ := step 3 (by omega)
  obtain ⟨s4, h4⟩ := step 4 (by omega)
  obtain ⟨s5, h5⟩ := step 5 (by omega)
  rw [Nat.add_zero] at h0
  rw [run_language_conversion_flow_eq, h0, h1, h2, h3, h4, h5]
  rfl

/-- C3, witness: the amended statement at a concrete stand-in service,
with source and target both "python". -/
theorem c3_no_language_validation_witness :
    (∀ j, j < 6 → (okSvc (0 + j)).isOk = true)
    ∧ (run_language_conversion_flow okSvc "print(1)" "python" "python" 1 0).toOption.map
        Prod.snd = some (0 + 6) :=
  ⟨by decide, c3_no_language_validation okSvc "print(1)" "python" "python" 1 0 (by decide)⟩

/-! ## C7 -/

/-- C7, counterexample: after two rounds starting from python, the single
python implementation is the first entry of its per-language sequence but
carries version 2, not the per-language ordinal 1. -/
theorem c7_version_not_per_language :
    run_competitive_session okSvc "x" "python" 2 = .ok sessionTwoRounds
    ∧ sessionTwoRounds.python_implementations.map CodeImplementation.version = [2]
    ∧ sessionTwoRounds.python_implementations.map CodeImplementation.version ≠ [1] :=
  ⟨rfl, rfl, by decide⟩

/-- C7, amended: each implementation's version is the global 1-based round
number that produced it, so the sequence opposite the (lower-cased)
original language carries versions 1, 3, 5, ... and the original language's
own sequence carries 2, 4, 6, ... — global round numbers, not per-language
ordinals. -/
theorem c7_versions_follow_global_round (svc : Service ε) (code language : String)
    (rounds : Nat) (s : GACCIASession)
    (h : run_competitive_session svc code language rounds = .ok s) :
    if pyLower language = "python" then
      s.python_implementations.map CodeImplementation.version = everyOther 2 (rounds / 2)
      ∧ s.typescript_implementations.map CodeImplementation.version
          = everyOther 1 ((rounds + 1) / 2)
    else
      s.python_implementations.map CodeImplementation.version
          = everyOther 1 ((rounds + 1) / 2)
      ∧ s.typescript_implementations.map CodeImplementation.version
          = everyOther 2 (rounds / 2) := by
  obtain ⟨nf, hsl⟩ := run_competitive_session_ok h
  have hv := sessionLoop_versions svc rounds code (pyLower language)
    { original_code := code
      original_language := pyLower language
      python_implementations := []
      typescript_implementations := [] } 0 0 s nf hsl
  simpa using hv

/-- C7, witness: the amended statement at a concrete two-round run. -/
theorem c7_versions_follow_global_round_witness :
    run_competitive_session okSvc "x" "python" 2 = .ok sessionTwoRounds
    ∧ (if pyLower "python" = "python" then
        sessionTwoRounds.python_implementations.map CodeImplementation.version
            = everyOther 2 (2 / 2)
        ∧ sessionTwoRounds.typescript_implementations.map CodeImplementation.version
            = everyOther 1 ((2 + 1) / 2)
      else
        sessionTwoRounds.python_implementations.map CodeImplementation.version
            = everyOther 1 ((2 + 1) / 2)
        ∧ sessionTwoRounds.typescript_implementations.map CodeImplementation.version
            = everyOther 2 (2 / 2)) :=
  ⟨rfl, c7_versions_follow_global_round okSvc "x" "python" 2 sessionTwoRounds rfl⟩

/-! ## C8 -/

/-- C8: if the first failing service request of a round is its (k+1)-th
outbound call (any of the six), the round executor returns exactly that
error — no implementation is produced — and the session loop entered on
that round propagates the same error, so no session state containing a
partial round is ever returned to the caller. -/
theorem c8_service_error_aborts_round (svc : Service ε)
    (code source_lang target_lang lang : String) (session : GACCIASession)
    (r roundNum version n k : Nat) (e : ε)
    (hok : ∀ j, j < k → (svc (n + j)).isOk = true)
    (herr : svc (n + k) = .error e) (hk : k < 6) :
    run_language_conversion_flow svc code source_lang target_lang version n = .error e
    ∧ sessionLoop svc (r + 1) code lang session roundNum n = .error e := by
  refine ⟨run_language_conversion_flow_error hok herr hk, ?_⟩
  rw [sessionLoop_succ_eq, run_language_conversion_flow_error hok herr hk]

/-- C8, witness: a service failing on its very first call makes both the
round and the loop fail with that error. -/
theorem c8_service_error_aborts_round_witness :
    (∀ j, j < 0 → (errSvc (0 + j)).isOk = true)
    ∧ errSvc (0 + 0) = .error "boom"
    ∧ (0 : Nat) < 6
    ∧ (run_language_conversion_flow errSvc "print(1)" "python" "typescript" 1 0
          = .error "boom"
       ∧ sessionLoop errSvc (0 + 1) "print(1)" "python"
           { original_code := "print(1)"
             original_language := "python"
             python_implementations := []
             typescript_implementations := [] } 0 0 = .error "boom") :=
  ⟨by decide, rfl, by omega,
   c8_service_error_aborts_round errSvc "print(1)" "python" "typescript" "python"
     { original_code := "print(1)"
       original_language := "python"
       python_implementations := []
       typescript_implementations := [] } 0 0 1 0 0 "boom" (by decide) rfl (by omega)⟩

/-! ## C5 -/

/-- C5, counterexample: one round starting from python leaves the python
sequence empty at evaluation time, yet the full competition does not fail:
the selection substitutes the unconverted original code "print(1)" for the
missing python side and the run returns a completed evaluation. -/
theorem c5_missing_side_not_failfast :
    run_competitive_session okSvc "print(1)" "python" 1 = .ok sessionOneRound
    ∧ sessionOneRound.python_implementations = []
    ∧ finalPythonCode sessionOneRound "print(1)" "python" = "print(1)"
    ∧ ((run_complete_competition okSvc dummyResp dummyResp "s" "s"
          "print(1)" "python" 1).toOption.join).isSome = true :=
  ⟨rfl, rfl, rfl, rfl⟩

/-- C5, amended: after a successful session run, the full competition
fails (returns no result) exactly when a side's selected text is empty,
where the selection falls back from an empty implementation sequence to
the unconverted original code whenever that side's language equals the
lower-cased original language — so a missing side matching the original
language is silently evaluated as the original code instead of failing. -/
theorem c5_fallback_characterization (svc : Service ε) (pyResp tsResp : Nat → String)
    (pySnarkResp tsSnarkResp : String) (code language : String) (rounds : Nat)
    (s : GACCIASession)
    (h : run_competitive_session svc code language rounds = .ok s) :
    run_complete_competition svc pyResp tsResp pySnarkResp tsSnarkResp code language rounds =
      (if finalPythonCode s code language = "" ∨ finalTypescriptCode s code language = ""
       then .ok none
       else .ok (some (s,
         evaluate_implementations (finalPythonCode s code language)
           (finalTypescriptCode s code language) pyResp tsResp pySnarkResp tsSnarkResp))) := by
  unfold run_complete_competition
  simp only [bind, Except.bind, h, pure, Except.pure]

/-- C5, witness: the amended characterization at the one-round python
session, where the python fallback text "print(1)" is nonempty and the
evaluation therefore proceeds. -/
theorem c5_fallback_characterization_witness :
    run_competitive_session okSvc "print(1)" "python" 1 = .ok sessionOneRound
    ∧ run_complete_competition okSvc dummyResp dummyResp "s" "s" "print(1)" "python" 1 =
        (if finalPythonCode sessionOneRound "print(1)" "python" = ""
            ∨ finalTypescriptCode sessionOneRound "print(1)" "python" = ""
         then .ok none
         else .ok (some (sessionOneRound,
           evaluate_implementations (finalPythonCode sessionOneRound "print(1)" "python")
             (finalTypescriptCode sessionOneRound "print(1)" "python")
             dummyResp dummyResp "s" "s"))) :=
  ⟨rfl, c5_fallback_characterization okSvc dummyResp dummyResp "s" "s"
    "print(1)" "python" 1 sessionOneRound rfl⟩
